import Mathlib

/-!
Shallow embedding of the photo-upload Flask application (`src/app.py`).

The application stores uploaded files redundantly in an Azure blob container
and an Azure file share, and serves a gallery page of signed (SAS) URLs.
We model the two backends as ordered association structures (enumeration
order is list order, matching `list_blobs` / `list_directories_and_files`),
the SAS-signing SDK call as an abstract primitive that records the
permission and expiry it is handed and may fail per object (an exception),
and backend write failures as oracles deciding whether a given write raises.
-/

set_option autoImplicit false

namespace PhotoApp

/-- A stored object: its content bytes and its MIME content-type
(`ContentSettings(content_type=...)` in `app.py`). -/
structure StoredObject where
  content : List Nat
  contentType : String
deriving DecidableEq, Repr

/-- An entry of the file share as returned by `list_directories_and_files`:
either a directory or a file (with stored content). -/
inductive ShareEntry where
  | dir (name : String)
  | file (name : String) (obj : StoredObject)
deriving DecidableEq, Repr

/-- The names of the non-directory entries of the share, in enumeration order. -/
def shareFileNames : List ShareEntry → List String
  | [] => []
  | .dir _ :: rest => shareFileNames rest
  | .file n _ :: rest => n :: shareFileNames rest

/-- The state of the two storage backends: the blob container (name/object
pairs, in `list_blobs` enumeration order) and the file share. -/
structure AppState where
  blobs : List (String × StoredObject)
  share : List ShareEntry
deriving DecidableEq, Repr

/-- The environment variables read at module load (`os.getenv` returns
`none` when the variable is unset). -/
structure Env where
  AZURE_STORAGE_CONNECTION_STRING : Option String
  AZURE_STORAGE_ACCOUNT_NAME : Option String
  AZURE_STORAGE_ACCOUNT_KEY : Option String
  AZURE_FILE_SHARE_NAME : Option String
deriving DecidableEq, Repr

/-- `container_name = "photos"` — a fixed literal in `app.py`, not read
from the environment. -/
def container_name : String := "photos"

/-- Python truthiness test `not x` on an optional string: true when the
variable is unset or set to the empty string. -/
def falsyEnv : Option String → Bool
  | none => true
  | some s => s = ""

/-- The validated module-level configuration available once startup
validation has passed. -/
structure Config where
  connect_str : String
  account_name : String
  account_key : String
  file_share_name : String
deriving DecidableEq, Repr

/-- Module initialization (`app.py` lines 14-22): fetch the four
environment variables and raise `ValueError` if any is falsy.  The blob
container name is the literal `"photos"` and is not fetched. -/
def init_app (env : Env) : Except String Config :=
  if falsyEnv env.AZURE_STORAGE_CONNECTION_STRING
      || falsyEnv env.AZURE_STORAGE_ACCOUNT_NAME
      || falsyEnv env.AZURE_STORAGE_ACCOUNT_KEY
      || falsyEnv env.AZURE_FILE_SHARE_NAME then
    .error "AZURE_STORAGE_CONNECTION_STRING, AZURE_STORAGE_ACCOUNT_NAME, AZURE_STORAGE_ACCOUNT_KEY, or AZURE_FILE_SHARE_NAME is missing in .env!"
  else
    .ok ⟨(env.AZURE_STORAGE_CONNECTION_STRING).getD "",
         (env.AZURE_STORAGE_ACCOUNT_NAME).getD "",
         (env.AZURE_STORAGE_ACCOUNT_KEY).getD "",
         (env.AZURE_FILE_SHARE_NAME).getD ""⟩

/-- The permission set handed to the SAS generator; `app.py` always passes
`BlobSasPermissions(read=True)`, leaving every other flag at its default
`False`. -/
structure BlobSasPermissions where
  read : Bool := false
  write : Bool := false
  delete : Bool := false
deriving DecidableEq, Repr

/-- A generated SAS token, recording the permission and expiry that were
signed into it and the resource path it covers. -/
structure SasToken where
  permission : BlobSasPermissions
  expiry : Nat
  signedResource : String
deriving DecidableEq, Repr

/-- Which backend a gallery URL points at. -/
inductive Backend where
  | blob
  | fileShare
deriving DecidableEq, Repr

/-- Per-object signing outcome: whether the SDK signing call for this
backend/object raises an exception. -/
def SignOracle := Backend → String → Bool

/-- The SAS-generation SDK call (`generate_blob_sas` in `app.py`, used for
both backends): returns a token carrying exactly the permission and expiry
it was handed, or fails (raises) when the oracle says so. -/
def generate_blob_sas (signOk : SignOracle) (backend : Backend)
    (accountName resourceName objectName accountKey : String)
    (permission : BlobSasPermissions) (expiry : Nat) : Option SasToken :=
  if signOk backend objectName then
    some ⟨permission, expiry, accountName ++ "/" ++ resourceName ++ "/" ++ objectName ++ "/" ++ accountKey⟩
  else
    none

/-- Time delta of one day, in seconds (`timedelta(days=1)`). -/
def one_day : Nat := 86400

/-- One `<img>` tag of the gallery: the backend its URL points at, the
object name in the URL path, and the SAS token in the query string. -/
structure GalleryEntry where
  backend : Backend
  objectName : String
  token : SasToken
deriving DecidableEq, Repr

/-- The URL rendered into the `src` attribute of a gallery entry. -/
def entryUrl (cfg : Config) (e : GalleryEntry) : String :=
  match e.backend with
  | .blob =>
    "https://" ++ cfg.account_name ++ ".blob.core.windows.net/" ++ container_name ++ "/" ++ e.objectName
  | .fileShare =>
    "https://" ++ cfg.account_name ++ ".file.core.windows.net/" ++ cfg.file_share_name ++ "/" ++ e.objectName

/-- The first loop of `view_photos` (`app.py` lines 52-68): for each blob,
in enumeration order, generate a read-only SAS token expiring one day from
now and append an `<img>` entry; a signing exception is caught and the
entry is skipped. -/
def blobEntries (signOk : SignOracle) (cfg : Config) (now : Nat)
    (blobs : List (String × StoredObject)) : List GalleryEntry :=
  blobs.filterMap fun b =>
    (generate_blob_sas signOk .blob cfg.account_name container_name b.1
        cfg.account_key { read := true } (now + one_day)).map
      fun tok => ⟨.blob, b.1, tok⟩

/-- The second loop of `view_photos` (`app.py` lines 70-87): for each
non-directory share entry, in enumeration order, generate a read-only SAS
token expiring one day from now and append an `<img>` entry; a signing
exception is caught and the entry is skipped; directories are skipped. -/
def fileEntries (signOk : SignOracle) (cfg : Config) (now : Nat)
    (share : List ShareEntry) : List GalleryEntry :=
  share.filterMap fun e =>
    match e with
    | .dir _ => none
    | .file n _ =>
      (generate_blob_sas signOk .fileShare cfg.account_name cfg.file_share_name n
          cfg.account_key { read := true } (now + one_day)).map
        fun tok => ⟨.fileShare, n, tok⟩

/-- The gallery of `view_photos`: the blob loop's entries followed by the
file-share loop's entries, in the order their tags are concatenated into
`img_html`. -/
def galleryOf (signOk : SignOracle) (cfg : Config) (now : Nat) (st : AppState) :
    List GalleryEntry :=
  blobEntries signOk cfg now st.blobs ++ fileEntries signOk cfg now st.share

/-- An HTTP response of the application: a 302 redirect with a Location,
or the 200 HTML gallery page whose `<img>` tags are the listed entries in
order. -/
inductive Response where
  | redirect (location : String)
  | page (gallery : List GalleryEntry)
deriving DecidableEq, Repr

/-- `GET /` (`view_photos`, `app.py` lines 46-111): enumerate both
backends, sign each object, render the page.  The backend state is
returned unchanged — the handler performs no writes. -/
def view_photos (signOk : SignOracle) (cfg : Config) (now : Nat) (st : AppState) :
    Response × AppState :=
  (.page (galleryOf signOk cfg now st), st)

/-- One file of the multipart `photos` field: its client-declared filename,
content bytes and content-type. -/
structure UploadFile where
  filename : String
  content : List Nat
  content_type : String
deriving DecidableEq, Repr

/-- Per-filename write outcome: whether `upload_blob` / `upload_file`
raises an exception for this name. -/
structure WriteOracle where
  blobOk : String → Bool
  shareOk : String → Bool

/-- A backend write attempted during upload handling. -/
inductive WriteEvent where
  | blobAttempt (name : String)
  | shareAttempt (name : String)
deriving DecidableEq, Repr

/-- `blob_client.upload_blob(..., overwrite=True)`: replace the object
stored under `n`, or append it if no object of that name exists. -/
def setEntry : List (String × StoredObject) → String → StoredObject →
    List (String × StoredObject)
  | [], n, o => [(n, o)]
  | (k, v) :: rest, n, o =>
    if k = n then (n, o) :: rest else (k, v) :: setEntry rest n o

/-- `file_client.upload_file(...)`: replace the file entry stored under
`n`, or append it; directory entries are untouched. -/
def shareSet : List ShareEntry → String → StoredObject → List ShareEntry
  | [], n, o => [.file n o]
  | .dir d :: rest, n, o => .dir d :: shareSet rest n o
  | .file k v :: rest, n, o =>
    if k = n then .file n o :: rest else .file k v :: shareSet rest n o

/-- One iteration of the upload loop (`app.py` lines 118-138).  An empty
filename is skipped.  Otherwise a single `try` covers both writes: the
blob write is attempted first; if it raises, control jumps to `except` and
the file-share write for this file is never attempted.  If the blob write
succeeds the file-share write is attempted (and its own failure is caught
by the same `except`).  Returns the new state and the writes attempted. -/
def processFile (ω : WriteOracle) (st : AppState) (f : UploadFile) :
    AppState × List WriteEvent :=
  if f.filename = "" then
    (st, [])
  else if ω.blobOk f.filename then
    let st1 : AppState := ⟨setEntry st.blobs f.filename ⟨f.content, f.content_type⟩, st.share⟩
    if ω.shareOk f.filename then
      (⟨st1.blobs, shareSet st1.share f.filename ⟨f.content, f.content_type⟩⟩,
        [.blobAttempt f.filename, .shareAttempt f.filename])
    else
      (st1, [.blobAttempt f.filename, .shareAttempt f.filename])
  else
    (st, [.blobAttempt f.filename])

/-- The upload loop over the submitted files, in arrival order. -/
def processFiles (ω : WriteOracle) (st : AppState) :
    List UploadFile → AppState × List WriteEvent
  | [] => (st, [])
  | f :: rest =>
    let r := processFile ω st f
    let r2 := processFiles ω r.1 rest
    (r2.1, r.2 ++ r2.2)

/-- `POST /upload-photos` (`upload_photos`, `app.py` lines 113-139).
`photos = none` models a multipart form without the `photos` field; the
handler then redirects immediately.  Otherwise every file is processed in
order and the handler redirects to `/` unconditionally.  Returns the
response, the final backend state and the attempted writes. -/
def upload_photos (ω : WriteOracle) (photos : Option (List UploadFile)) (st : AppState) :
    Response × AppState × List WriteEvent :=
  match photos with
  | none => (.redirect "/", st, [])
  | some fs =>
    let r := processFiles ω st fs
    (.redirect "/", r.1, r.2)

/-! ### Helper lemmas about the gallery construction -/

/-- Every entry produced by the blob loop carries the read-only permission,
the one-day expiry, and points at the blob backend. -/
lemma token_of_mem_blobEntries {signOk : SignOracle} {cfg : Config} {now : Nat}
    {blobs : List (String × StoredObject)} {e : GalleryEntry}
    (h : e ∈ blobEntries signOk cfg now blobs) :
    e.token.permission = { read := true } ∧ e.token.expiry = now + one_day ∧
      e.backend = .blob := by
  rcases List.mem_filterMap.1 h with ⟨b, _, hfb⟩
  by_cases hs : signOk .blob b.1 = true
  · simp only [generate_blob_sas, hs, if_true, Option.map_some', Option.some.injEq] at hfb
    subst hfb
    exact ⟨rfl, rfl, rfl⟩
  · simp [generate_blob_sas, hs] at hfb

/-- Every entry produced by the file-share loop carries the read-only
permission, the one-day expiry, and points at the file-share backend. -/
lemma token_of_mem_fileEntries {signOk : SignOracle} {cfg : Config} {now : Nat}
    {share : List ShareEntry} {e : GalleryEntry}
    (h : e ∈ fileEntries signOk cfg now share) :
    e.token.permission = { read := true } ∧ e.token.expiry = now + one_day ∧
      e.backend = .fileShare := by
  rcases List.mem_filterMap.1 h with ⟨s, _, hfs⟩
  cases s with
  | dir d => simp at hfs
  | file n o =>
    by_cases hs : signOk .fileShare n = true
    · simp only [generate_blob_sas, hs, if_true, Option.map_some', Option.some.injEq] at hfs
      subst hfs
      exact ⟨rfl, rfl, rfl⟩
    · simp [generate_blob_sas, hs] at hfs

/-- The object names of the blob loop's entries, in order: the blob
enumeration order, restricted to the objects whose signing succeeds. -/
lemma blobEntries_names (signOk : SignOracle) (cfg : Config) (now : Nat) :
    ∀ blobs : List (String × StoredObject),
      (blobEntries signOk cfg now blobs).map GalleryEntry.objectName =
        (blobs.map Prod.fst).filter (fun n => signOk .blob n)
  | [] => rfl
  | b :: rest => by
    have ih := blobEntries_names signOk cfg now rest
    by_cases hs : signOk .blob b.1 = true <;>
      simpa [blobEntries, generate_blob_sas, hs] using ih

/-- The object names of the file-share loop's entries, in order: the
share's non-directory enumeration order, restricted to the objects whose
signing succeeds. -/
lemma fileEntries_names (signOk : SignOracle) (cfg : Config) (now : Nat) :
    ∀ share : List ShareEntry,
      (fileEntries signOk cfg now share).map GalleryEntry.objectName =
        (shareFileNames share).filter (fun n => signOk .fileShare n)
  | [] => rfl
  | .dir d :: rest => by
    simpa [fileEntries, shareFileNames] using fileEntries_names signOk cfg now rest
  | .file n o :: rest => by
    have ih := fileEntries_names signOk cfg now rest
    by_cases hs : signOk .fileShare n = true <;>
      simpa [fileEntries, generate_blob_sas, hs, shareFileNames] using ih

/-- A blob-backed gallery entry with object name `n` exists iff some blob
named `n` is stored and its signing succeeds. -/
lemma mem_blobEntries_iff (signOk : SignOracle) (cfg : Config) (now : Nat)
    (blobs : List (String × StoredObject)) (n : String) :
    (∃ tok, GalleryEntry.mk .blob n tok ∈ blobEntries signOk cfg now blobs) ↔
      ((∃ o, (n, o) ∈ blobs) ∧ signOk .blob n = true) := by
  constructor
  · rintro ⟨tok, h⟩
    rcases List.mem_filterMap.1 h with ⟨b, hb, hfb⟩
    by_cases hs : signOk .blob b.1 = true
    · simp only [generate_blob_sas, hs, if_true, Option.map_some', Option.some.injEq] at hfb
      have hn : b.1 = n := congrArg GalleryEntry.objectName hfb
      subst hn
      exact ⟨⟨b.2, hb⟩, hs⟩
    · simp [generate_blob_sas, hs] at hfb
  · rintro ⟨⟨o, ho⟩, hs⟩
    exact ⟨⟨{ read := true }, now + one_day,
        cfg.account_name ++ "/" ++ container_name ++ "/" ++ n ++ "/" ++ cfg.account_key⟩,
      List.mem_filterMap.2 ⟨(n, o), ho, by simp [generate_blob_sas, hs]⟩⟩

/-- A share-backed gallery entry with object name `n` exists iff some file
(not directory) named `n` is in the share and its signing succeeds. -/
lemma mem_fileEntries_iff (signOk : SignOracle) (cfg : Config) (now : Nat)
    (share : List ShareEntry) (n : String) :
    (∃ tok, GalleryEntry.mk .fileShare n tok ∈ fileEntries signOk cfg now share) ↔
      ((∃ o, ShareEntry.file n o ∈ share) ∧ signOk .fileShare n = true) := by
  constructor
  · rintro ⟨tok, h⟩
    rcases List.mem_filterMap.1 h with ⟨s, hs', hfs⟩
    cases s with
    | dir d => simp at hfs
    | file m o =>
      by_cases hs : signOk .fileShare m = true
      · simp only [generate_blob_sas, hs, if_true, Option.map_some', Option.some.injEq] at hfs
        have hn : m = n := congrArg GalleryEntry.objectName hfs
        subst hn
        exact ⟨⟨o, hs'⟩, hs⟩
      · simp [generate_blob_sas, hs] at hfs
  · rintro ⟨⟨o, ho⟩, hs⟩
    exact ⟨⟨{ read := true }, now + one_day,
        cfg.account_name ++ "/" ++ cfg.file_share_name ++ "/" ++ n ++ "/" ++ cfg.account_key⟩,
      List.mem_filterMap.2 ⟨ShareEntry.file n o, ho, by simp [generate_blob_sas, hs]⟩⟩

/-! ### Helper lemmas about the backend write operations -/

/-- The blob container holds some object named `n`. -/
def blobHas (l : List (String × StoredObject)) (n : String) : Prop :=
  ∃ o, (n, o) ∈ l

/-- The file share holds some non-directory entry named `n`. -/
def shareHas (l : List ShareEntry) (n : String) : Prop :=
  ∃ o, ShareEntry.file n o ∈ l

lemma blobHas_setEntry_self (n : String) (o : StoredObject) :
    ∀ l : List (String × StoredObject), blobHas (setEntry l n o) n
  | [] => ⟨o, List.mem_singleton.2 rfl⟩
  | (k, v) :: rest => by
    by_cases hk : k = n
    · exact ⟨o, by simp [setEntry, hk]⟩
    · obtain ⟨o', ho'⟩ := blobHas_setEntry_self n o rest
      exact ⟨o', by simp [setEntry, hk, ho']⟩

lemma blobHas_setEntry_mono {m : String} (n : String) (o : StoredObject) :
    ∀ l : List (String × StoredObject), blobHas l m → blobHas (setEntry l n o) m
  | [], h => absurd h (by simp [blobHas])
  | (k, v) :: rest, h => by
    rcases h with ⟨p, hp⟩
    by_cases hk : k = n
    · subst hk
      rcases List.mem_cons.1 hp with heq | hmem
      · exact ⟨o, by simp [setEntry, (Prod.mk.injEq .. ▸ heq).1]⟩
      · exact ⟨p, by simp [setEntry, hmem]⟩
    · rcases List.mem_cons.1 hp with heq | hmem
      · exact ⟨p, by simp [setEntry, hk, heq]⟩
      · obtain ⟨p', hp'⟩ := blobHas_setEntry_mono n o rest ⟨p, hmem⟩
        exact ⟨p', by simp [setEntry, hk, hp']⟩

lemma shareHas_shareSet_self (n : String) (o : StoredObject) :
    ∀ l : List ShareEntry, shareHas (shareSet l n o) n
  | [] => ⟨o, List.mem_singleton.2 rfl⟩
  | .dir d :: rest => by
    obtain ⟨o', ho'⟩ := shareHas_shareSet_self n o rest
    exact ⟨o', by simp [shareSet, ho']⟩
  | .file k v :: rest => by
    by_cases hk : k = n
    · exact ⟨o, by simp [shareSet, hk]⟩
    · obtain ⟨o', ho'⟩ := shareHas_shareSet_self n o rest
      exact ⟨o', by simp [shareSet, hk, ho']⟩

lemma shareHas_shareSet_mono {m : String} (n : String) (o : StoredObject) :
    ∀ l : List ShareEntry, shareHas l m → shareHas (shareSet l n o) m
  | [], h => absurd h (by simp [shareHas])
  | .dir d :: rest, h => by
    rcases h with ⟨p, hp⟩
    rcases List.mem_cons.1 hp with heq | hmem
    · exact absurd heq (by simp)
    · obtain ⟨p', hp'⟩ := shareHas_shareSet_mono n o rest ⟨p, hmem⟩
      exact ⟨p', by simp [shareSet, hp']⟩
  | .file k v :: rest, h => by
    rcases h with ⟨p, hp⟩
    by_cases hk : k = n
    · subst hk
      rcases List.mem_cons.1 hp with heq | hmem
      · have : m = k := (ShareEntry.file.injEq .. ▸ heq).1
        exact ⟨o, by simp [shareSet, this]⟩
      · exact ⟨p, by simp [shareSet, hmem]⟩
    · rcases List.mem_cons.1 hp with heq | hmem
      · have h1 : m = k := (ShareEntry.file.injEq .. ▸ heq).1
        have h2 : p = v := (ShareEntry.file.injEq .. ▸ heq).2
        exact ⟨v, by simp [shareSet, hk, h1, h2.symm ▸ heq]⟩
      · obtain ⟨p', hp'⟩ := shareHas_shareSet_mono n o rest ⟨p, hmem⟩
        exact ⟨p', by simp [shareSet, hk, hp']⟩

/-- Processing one upload file only ever adds or replaces entries: every
name present in either backend before is still present after. -/
lemma processFile_mono (ω : WriteOracle) (st : AppState) (f : UploadFile) (m : String) :
    (blobHas st.blobs m → blobHas (processFile ω st f).1.blobs m) ∧
    (shareHas st.share m → shareHas (processFile ω st f).1.share m) := by
  unfold processFile
  by_cases h0 : f.filename = ""
  · simp [h0]
  · by_cases hb : ω.blobOk f.filename = true
    · by_cases hsh : ω.shareOk f.filename = true
      · simp only [h0, hb, hsh, if_false, if_true]
        exact ⟨blobHas_setEntry_mono _ _ _, shareHas_shareSet_mono _ _ _⟩
      · simp only [h0, hb, hsh, if_false, if_true]
        exact ⟨blobHas_setEntry_mono _ _ _, fun h => h⟩
    · simp [h0, hb]

/-- The upload loop only ever adds or replaces entries. -/
lemma processFiles_mono (ω : WriteOracle) (m : String) :
    ∀ (fs : List UploadFile) (st : AppState),
      (blobHas st.blobs m → blobHas (processFiles ω st fs).1.blobs m) ∧
      (shareHas st.share m → shareHas (processFiles ω st fs).1.share m)
  | [], st => ⟨fun h => h, fun h => h⟩
  | f :: rest, st => by
    have h1 := processFile_mono ω st f m
    have h2 := processFiles_mono ω m rest (processFile ω st f).1
    exact ⟨fun h => h2.1 (h1.1 h), fun h => h2.2 (h1.2 h)⟩

/-- After a fully successful `processFile` of `f`, both backends hold an
entry named `f.filename`. -/
lemma processFile_self (ω : WriteOracle) (st : AppState) (f : UploadFile)
    (hname : ¬f.filename = "") (hb : ω.blobOk f.filename = true)
    (hsh : ω.shareOk f.filename = true) :
    blobHas (processFile ω st f).1.blobs f.filename ∧
    shareHas (processFile ω st f).1.share f.filename := by
  unfold processFile
  simp only [hname, hb, hsh, if_false, if_true]
  exact ⟨blobHas_setEntry_self _ _ _, shareHas_shareSet_self _ _ _⟩

lemma mem_shareFileNames_of_mem {n : String} {o : StoredObject} :
    ∀ {l : List ShareEntry}, ShareEntry.file n o ∈ l → n ∈ shareFileNames l
  | [], h => absurd h (List.not_mem_nil _)
  | .dir d :: rest, h => by
    rcases List.mem_cons.1 h with heq | hmem
    · exact absurd heq (by simp)
    · simpa [shareFileNames] using mem_shareFileNames_of_mem hmem
  | .file k v :: rest, h => by
    rcases List.mem_cons.1 h with heq | hmem
    · simp [shareFileNames, (ShareEntry.file.injEq .. ▸ heq).1]
    · simp [shareFileNames, mem_shareFileNames_of_mem hmem]

/-- With no duplicate blob names, the object stored under `n` after
`setEntry l n o` is uniquely `o`: no older version survives. -/
lemma setEntry_unique {n : String} {o o' : StoredObject} :
    ∀ {l : List (String × StoredObject)}, (l.map Prod.fst).Nodup →
      (n, o') ∈ setEntry l n o → o' = o
  | [], _, h => by simpa [setEntry] using (Prod.mk.injEq .. ▸ List.mem_singleton.1 h).2
  | (k, v) :: rest, hnd, h => by
    have hk_not : k ∉ rest.map Prod.fst := by
      simpa using (List.nodup_cons.1 hnd).1
    have hrest : (rest.map Prod.fst).Nodup := (List.nodup_cons.1 hnd).2
    by_cases hk : k = n
    · subst hk
      simp only [setEntry, if_true] at h
      rcases List.mem_cons.1 h with heq | hmem
      · exact (Prod.mk.injEq .. ▸ heq).2
      · exact absurd (List.mem_map.2 ⟨(k, o'), hmem, rfl⟩) hk_not
    · simp only [setEntry, hk, if_false] at h
      rcases List.mem_cons.1 h with heq | hmem
      · exact absurd (Prod.mk.injEq .. ▸ heq).1 (fun hnk => hk hnk.symm)
      · exact setEntry_unique hrest hmem

/-- With no duplicate file names in the share, the file stored under `n`
after `shareSet l n o` is uniquely `o`: no older version survives. -/
lemma shareSet_unique {n : String} {o o' : StoredObject} :
    ∀ {l : List ShareEntry}, (shareFileNames l).Nodup →
      ShareEntry.file n o' ∈ shareSet l n o → o' = o
  | [], _, h => by
    simpa [shareSet] using (ShareEntry.file.injEq .. ▸ List.mem_singleton.1 h).2
  | .dir d :: rest, hnd, h => by
    have hmem : ShareEntry.file n o' ∈ shareSet rest n o := by simpa [shareSet] using h
    exact shareSet_unique (by simpa [shareFileNames] using hnd) hmem
  | .file k v :: rest, hnd, h => by
    have hnd' : (k :: shareFileNames rest).Nodup := by simpa [shareFileNames] using hnd
    have hk_not : k ∉ shareFileNames rest := (List.nodup_cons.1 hnd').1
    have hrest : (shareFileNames rest).Nodup := (List.nodup_cons.1 hnd').2
    by_cases hk : k = n
    · subst hk
      simp only [shareSet, if_true] at h
      rcases List.mem_cons.1 h with heq | hmem
      · exact (ShareEntry.file.injEq .. ▸ heq).2
      · exact absurd (mem_shareFileNames_of_mem hmem) hk_not
    · simp only [shareSet, hk, if_false] at h
      rcases List.mem_cons.1 h with heq | hmem
      · exact absurd (ShareEntry.file.injEq .. ▸ heq).1 (fun hnk => hk hnk.symm)
      · exact shareSet_unique hrest hmem

/-- The upload loop on files that all have empty filenames does nothing:
no state change and no attempted write. -/
lemma processFiles_all_empty (ω : WriteOracle) :
    ∀ (fs : List UploadFile) (st : AppState), (∀ f ∈ fs, f.filename = "") →
      processFiles ω st fs = (st, [])
  | [], st, _ => rfl
  | f :: rest, st, h => by
    have hf : f.filename = "" := h f (List.mem_cons_self f rest)
    have hrest := processFiles_all_empty ω rest st fun g hg => h g (List.mem_cons_of_mem f hg)
    simp [processFiles, processFile, hf, hrest]

/-! ### Claim theorems -/

/-- C1, counterexample: with a single submitted file `cat.png` whose blob
write raises (the share write would succeed), the blob write is attempted
but the file-share write for that same file is never attempted — the
single `try` around both writes makes the blob write's failure skip the
file-share write, so the two writes are NOT independent failure domains. -/
theorem upload_blob_failure_cex :
    WriteEvent.blobAttempt "cat.png" ∈
      (upload_photos ⟨fun _ => false, fun _ => true⟩
        (some [⟨"cat.png", [1], "image/png"⟩]) ⟨[], []⟩).2.2 ∧
    WriteEvent.shareAttempt "cat.png" ∉
      (upload_photos ⟨fun _ => false, fun _ => true⟩
        (some [⟨"cat.png", [1], "image/png"⟩]) ⟨[], []⟩).2.2 := by
  decide

/-- C1, amended: a failure of a file's blob write skips the file-share
write for that same file (both writes sit in one `try`/`except`), leaves
the state unchanged for that file, and does not prevent the write attempts
for the subsequent files, which are processed from the same state. -/
theorem blob_failure_confined_to_file (ω : WriteOracle) (st : AppState) (f : UploadFile)
    (rest : List UploadFile) (hname : ¬f.filename = "")
    (hfail : ω.blobOk f.filename = false) :
    processFile ω st f = (st, [WriteEvent.blobAttempt f.filename]) ∧
    processFiles ω st (f :: rest) =
      ((processFiles ω st rest).1,
        WriteEvent.blobAttempt f.filename :: (processFiles ω st rest).2) := by
  have h1 : processFile ω st f = (st, [WriteEvent.blobAttempt f.filename]) := by
    simp [processFile, hname, hfail]
  exact ⟨h1, by simp [processFiles, h1]⟩

/-- Witness for the amended C1, at a concrete file and failing blob oracle. -/
theorem blob_failure_confined_to_file_witness :
    (¬("cat.png" : String) = "" ∧ (fun _ : String => false) "cat.png" = false) ∧
    (processFile ⟨fun _ => false, fun _ => true⟩ ⟨[], []⟩ ⟨"cat.png", [1], "image/png"⟩ =
        (⟨[], []⟩, [WriteEvent.blobAttempt "cat.png"]) ∧
      processFiles ⟨fun _ => false, fun _ => true⟩ ⟨[], []⟩ [⟨"cat.png", [1], "image/png"⟩] =
        ((processFiles ⟨fun _ => false, fun _ => true⟩ ⟨[], []⟩ []).1,
          WriteEvent.blobAttempt "cat.png" ::
            (processFiles ⟨fun _ => false, fun _ => true⟩ ⟨[], []⟩ []).2)) :=
  ⟨⟨by decide, rfl⟩,
    blob_failure_confined_to_file ⟨fun _ => false, fun _ => true⟩ ⟨[], []⟩
      ⟨"cat.png", [1], "image/png"⟩ [] (by decide) rfl⟩

/-- C2: every gallery entry on the page returned by `GET /` carries a SAS
token whose permission is read-only (`read` set, `write` and `delete`
unset) and whose expiry is exactly one day after the generation time. -/
theorem sas_readonly_24h (signOk : SignOracle) (cfg : Config) (now : Nat)
    (st : AppState) (g : List GalleryEntry) (e : GalleryEntry)
    (hpage : (view_photos signOk cfg now st).1 = Response.page g) (he : e ∈ g) :
    e.token.permission = { read := true, write := false, delete := false } ∧
    e.token.expiry = now + one_day := by
  have hpage' : Response.page (galleryOf signOk cfg now st) = Response.page g := hpage
  have hg : galleryOf signOk cfg now st = g := by injection hpage'
  rw [← hg] at he
  rcases List.mem_append.1 he with h | h
  · exact ⟨(token_of_mem_blobEntries h).1, (token_of_mem_blobEntries h).2.1⟩
  · exact ⟨(token_of_mem_fileEntries h).1, (token_of_mem_fileEntries h).2.1⟩

/-- Witness for C2, at a one-blob state with always-succeeding signing. -/
theorem sas_readonly_24h_witness :
    ((view_photos (fun _ _ => true) ⟨"cs", "acct", "key", "share"⟩ 0
        ⟨[("a.png", ⟨[0], "image/png"⟩)], []⟩).1 =
      Response.page
        [⟨.blob, "a.png", ⟨{ read := true }, 0 + one_day, "acct/photos/a.png/key"⟩⟩]) ∧
    (GalleryEntry.mk .blob "a.png" ⟨{ read := true }, 0 + one_day, "acct/photos/a.png/key"⟩ ∈
      ([⟨.blob, "a.png", ⟨{ read := true }, 0 + one_day, "acct/photos/a.png/key"⟩⟩] :
        List GalleryEntry)) ∧
    ((GalleryEntry.mk .blob "a.png"
        ⟨{ read := true }, 0 + one_day, "acct/photos/a.png/key"⟩).token.permission =
      { read := true, write := false, delete := false } ∧
     (GalleryEntry.mk .blob "a.png"
        ⟨{ read := true }, 0 + one_day, "acct/photos/a.png/key"⟩).token.expiry = 0 + one_day) :=
  ⟨by decide, by decide,
    sas_readonly_24h (fun _ _ => true) ⟨"cs", "acct", "key", "share"⟩ 0
      ⟨[("a.png", ⟨[0], "image/png"⟩)], []⟩
      [⟨.blob, "a.png", ⟨{ read := true }, 0 + one_day, "acct/photos/a.png/key"⟩⟩]
      (GalleryEntry.mk .blob "a.png" ⟨{ read := true }, 0 + one_day, "acct/photos/a.png/key"⟩)
      (by decide) (by decide)⟩

/-- C4: a POST without the `photos` field, or whose `photos` entries all
have empty filenames, returns the redirect to `/`, leaves both backends
untouched and attempts zero writes. -/
theorem empty_upload_no_writes (ω : WriteOracle) (photos : Option (List UploadFile))
    (st : AppState)
    (h : photos = none ∨ ∃ fs, photos = some fs ∧ ∀ f ∈ fs, f.filename = "") :
    upload_photos ω photos st = (Response.redirect "/", st, []) := by
  rcases h with h | ⟨fs, hfs, hall⟩
  · subst h; rfl
  · subst hfs
    simp [upload_photos, processFiles_all_empty ω fs st hall]

/-- Witness for C4, at a one-file request whose filename is empty. -/
theorem empty_upload_no_writes_witness :
    ((some [(⟨"", [1], "text"⟩ : UploadFile)]) = none ∨
      ∃ fs, (some [(⟨"", [1], "text"⟩ : UploadFile)]) = some fs ∧
        ∀ f ∈ fs, f.filename = "") ∧
    upload_photos ⟨fun _ => true, fun _ => true⟩ (some [⟨"", [1], "text"⟩]) ⟨[], []⟩ =
      (Response.redirect "/", ⟨[], []⟩, []) :=
  ⟨Or.inr ⟨[⟨"", [1], "text"⟩], rfl, by decide⟩,
    empty_upload_no_writes ⟨fun _ => true, fun _ => true⟩ (some [⟨"", [1], "text"⟩]) ⟨[], []⟩
      (Or.inr ⟨[⟨"", [1], "text"⟩], rfl, by decide⟩)⟩

/-- C5: `POST /upload-photos` responds with the redirect to `/` whatever
the submitted files and whatever writes fail — the response never carries
an error indication. -/
theorem upload_always_redirects (ω : WriteOracle) (photos : Option (List UploadFile))
    (st : AppState) :
    (upload_photos ω photos st).1 = Response.redirect "/" := by
  cases photos <;> rfl

/-- C3: a file with a non-empty filename whose blob and file-share writes
both succeed is, on a subsequent `GET /`, represented by a blob-backed
signed URL and by a share-backed signed URL — each unless the signing of
that object fails. -/
theorem uploaded_file_listed (ω : WriteOracle) (photos : List UploadFile)
    (st : AppState) (f : UploadFile) (signOk : SignOracle) (cfg : Config) (now : Nat)
    (hmem : f ∈ photos) (hname : ¬f.filename = "")
    (hblob : ω.blobOk f.filename = true) (hshare : ω.shareOk f.filename = true) :
    (signOk .blob f.filename = true →
      ∃ tok, GalleryEntry.mk .blob f.filename tok ∈
        galleryOf signOk cfg now (upload_photos ω (some photos) st).2.1) ∧
    (signOk .fileShare f.filename = true →
      ∃ tok, GalleryEntry.mk .fileShare f.filename tok ∈
        galleryOf signOk cfg now (upload_photos ω (some photos) st).2.1) := by
  have key : ∀ (l : List UploadFile) (st0 : AppState), f ∈ l →
      blobHas (processFiles ω st0 l).1.blobs f.filename ∧
      shareHas (processFiles ω st0 l).1.share f.filename := by
    intro l
    induction l with
    | nil => intro st0 h; exact absurd h (List.not_mem_nil f)
    | cons g rest ih =>
      intro st0 h
      have hstep : (processFiles ω st0 (g :: rest)).1 =
          (processFiles ω (processFile ω st0 g).1 rest).1 := rfl
      rcases List.mem_cons.1 h with heq | hmem'
      · subst heq
        have h1 := processFile_self ω st0 f hname hblob hshare
        have h2 := processFiles_mono ω f.filename rest (processFile ω st0 f).1
        rw [hstep]
        exact ⟨h2.1 h1.1, h2.2 h1.2⟩
      · rw [hstep]
        exact ih (processFile ω st0 g).1 hmem'
  have hst : (upload_photos ω (some photos) st).2.1 = (processFiles ω st photos).1 := rfl
  rw [hst]
  obtain ⟨hB, hS⟩ := key photos st hmem
  constructor
  · intro hsig
    obtain ⟨tok, htok⟩ := (mem_blobEntries_iff signOk cfg now _ f.filename).2 ⟨hB, hsig⟩
    exact ⟨tok, List.mem_append.2 (Or.inl htok)⟩
  · intro hsig
    obtain ⟨tok, htok⟩ := (mem_fileEntries_iff signOk cfg now _ f.filename).2 ⟨hS, hsig⟩
    exact ⟨tok, List.mem_append.2 (Or.inr htok)⟩

/-- Witness for C3: uploading `cat.png` into empty backends with
everything succeeding, the subsequent gallery lists it for both backends. -/
theorem uploaded_file_listed_witness :
    ((⟨"cat.png", [1], "image/png"⟩ : UploadFile) ∈
        [(⟨"cat.png", [1], "image/png"⟩ : UploadFile)] ∧
      ¬("cat.png" : String) = "" ∧
      (fun _ : String => true) "cat.png" = true ∧
      (fun _ : String => true) "cat.png" = true) ∧
    (((fun _ _ => true) : SignOracle) .blob "cat.png" = true →
      ∃ tok, GalleryEntry.mk .blob "cat.png" tok ∈
        galleryOf (fun _ _ => true) ⟨"cs", "acct", "key", "share"⟩ 0
          (upload_photos ⟨fun _ => true, fun _ => true⟩
            (some [⟨"cat.png", [1], "image/png"⟩]) ⟨[], []⟩).2.1) ∧
    (((fun _ _ => true) : SignOracle) .fileShare "cat.png" = true →
      ∃ tok, GalleryEntry.mk .fileShare "cat.png" tok ∈
        galleryOf (fun _ _ => true) ⟨"cs", "acct", "key", "share"⟩ 0
          (upload_photos ⟨fun _ => true, fun _ => true⟩
            (some [⟨"cat.png", [1], "image/png"⟩]) ⟨[], []⟩).2.1) :=
  ⟨⟨by decide, by decide, rfl, rfl⟩,
    uploaded_file_listed ⟨fun _ => true, fun _ => true⟩ [⟨"cat.png", [1], "image/png"⟩]
      ⟨[], []⟩ ⟨"cat.png", [1], "image/png"⟩ (fun _ _ => true)
      ⟨"cs", "acct", "key", "share"⟩ 0 (by decide) (by decide) rfl rfl⟩

/-- C6: `GET /` always renders the page (never an error response), and
the gallery holds a blob-backed (resp. share-backed) entry for a name
exactly when an object of that name is stored and its signing succeeds —
an object whose signing fails is omitted alone, every other success is
kept. -/
theorem signing_failure_isolated (signOk : SignOracle) (cfg : Config) (now : Nat)
    (st : AppState) :
    (view_photos signOk cfg now st).1 = Response.page (galleryOf signOk cfg now st) ∧
    (∀ n, (∃ tok, GalleryEntry.mk .blob n tok ∈ galleryOf signOk cfg now st) ↔
      ((∃ o, (n, o) ∈ st.blobs) ∧ signOk .blob n = true)) ∧
    (∀ n, (∃ tok, GalleryEntry.mk .fileShare n tok ∈ galleryOf signOk cfg now st) ↔
      ((∃ o, ShareEntry.file n o ∈ st.share) ∧ signOk .fileShare n = true)) := by
  refine ⟨rfl, fun n => ?_, fun n => ?_⟩
  · constructor
    · rintro ⟨tok, h⟩
      rcases List.mem_append.1 h with h | h
      · exact (mem_blobEntries_iff signOk cfg now st.blobs n).1 ⟨tok, h⟩
      · have hc := (token_of_mem_fileEntries h).2.2
        simp at hc
    · intro hx
      obtain ⟨tok, htok⟩ := (mem_blobEntries_iff signOk cfg now st.blobs n).2 hx
      exact ⟨tok, List.mem_append.2 (Or.inl htok)⟩
  · constructor
    · rintro ⟨tok, h⟩
      rcases List.mem_append.1 h with h | h
      · have hc := (token_of_mem_blobEntries h).2.2
        simp at hc
      · exact (mem_fileEntries_iff signOk cfg now st.share n).1 ⟨tok, h⟩
    · intro hx
      obtain ⟨tok, htok⟩ := (mem_fileEntries_iff signOk cfg now st.share n).2 hx
      exact ⟨tok, List.mem_append.2 (Or.inr htok)⟩

/-- C7: re-uploading a name that both backends already store, with both
writes succeeding, leaves exactly the new content and content-type stored
under that name in both backends — the old version is not retained. -/
theorem overwrite_last_write_wins (ω : WriteOracle) (st : AppState) (f : UploadFile)
    (hname : ¬f.filename = "") (hblob : ω.blobOk f.filename = true)
    (hshare : ω.shareOk f.filename = true)
    (_hprevB : ∃ o, (f.filename, o) ∈ st.blobs)
    (_hprevS : ∃ o, ShareEntry.file f.filename o ∈ st.share)
    (hndB : (st.blobs.map Prod.fst).Nodup)
    (hndS : (shareFileNames st.share).Nodup) :
    ((f.filename, (⟨f.content, f.content_type⟩ : StoredObject)) ∈
        (processFile ω st f).1.blobs ∧
      ∀ o, (f.filename, o) ∈ (processFile ω st f).1.blobs →
        o = ⟨f.content, f.content_type⟩) ∧
    (ShareEntry.file f.filename ⟨f.content, f.content_type⟩ ∈
        (processFile ω st f).1.share ∧
      ∀ o, ShareEntry.file f.filename o ∈ (processFile ω st f).1.share →
        o = ⟨f.content, f.content_type⟩) := by
  have hred : (processFile ω st f).1 =
      ⟨setEntry st.blobs f.filename ⟨f.content, f.content_type⟩,
       shareSet st.share f.filename ⟨f.content, f.content_type⟩⟩ := by
    simp [processFile, hname, hblob, hshare]
  rw [hred]
  obtain ⟨oB, hoB⟩ := blobHas_setEntry_self f.filename ⟨f.content, f.content_type⟩ st.blobs
  obtain ⟨oS, hoS⟩ := shareHas_shareSet_self f.filename ⟨f.content, f.content_type⟩ st.share
  have heB : oB = ⟨f.content, f.content_type⟩ := setEntry_unique hndB hoB
  have heS : oS = ⟨f.content, f.content_type⟩ := shareSet_unique hndS hoS
  exact ⟨⟨heB ▸ hoB, fun o ho => setEntry_unique hndB ho⟩,
    ⟨heS ▸ hoS, fun o ho => shareSet_unique hndS ho⟩⟩

/-- Witness for C7: overwriting `cat.png` in backends that already hold
an older version of it. -/
theorem overwrite_last_write_wins_witness :
    (¬("cat.png" : String) = "" ∧
      (fun _ : String => true) "cat.png" = true ∧
      (fun _ : String => true) "cat.png" = true ∧
      (∃ o, (("cat.png", o) : String × StoredObject) ∈
        [(("cat.png", ⟨[0], "old"⟩) : String × StoredObject)]) ∧
      (∃ o, ShareEntry.file "cat.png" o ∈ [ShareEntry.file "cat.png" ⟨[0], "old"⟩]) ∧
      (([(("cat.png", ⟨[0], "old"⟩) : String × StoredObject)].map Prod.fst)).Nodup ∧
      (shareFileNames [ShareEntry.file "cat.png" ⟨[0], "old"⟩]).Nodup) ∧
    ((("cat.png", (⟨[1], "image/png"⟩ : StoredObject)) ∈
        (processFile ⟨fun _ => true, fun _ => true⟩
          ⟨[("cat.png", ⟨[0], "old"⟩)], [ShareEntry.file "cat.png" ⟨[0], "old"⟩]⟩
          ⟨"cat.png", [1], "image/png"⟩).1.blobs ∧
      ∀ o, ("cat.png", o) ∈
          (processFile ⟨fun _ => true, fun _ => true⟩
            ⟨[("cat.png", ⟨[0], "old"⟩)], [ShareEntry.file "cat.png" ⟨[0], "old"⟩]⟩
            ⟨"cat.png", [1], "image/png"⟩).1.blobs →
        o = ⟨[1], "image/png"⟩) ∧
    (ShareEntry.file "cat.png" ⟨[1], "image/png"⟩ ∈
        (processFile ⟨fun _ => true, fun _ => true⟩
          ⟨[("cat.png", ⟨[0], "old"⟩)], [ShareEntry.file "cat.png" ⟨[0], "old"⟩]⟩
          ⟨"cat.png", [1], "image/png"⟩).1.share ∧
      ∀ o, ShareEntry.file "cat.png" o ∈
          (processFile ⟨fun _ => true, fun _ => true⟩
            ⟨[("cat.png", ⟨[0], "old"⟩)], [ShareEntry.file "cat.png" ⟨[0], "old"⟩]⟩
            ⟨"cat.png", [1], "image/png"⟩).1.share →
        o = ⟨[1], "image/png"⟩)) :=
  ⟨⟨by decide, rfl, rfl, ⟨⟨[0], "old"⟩, by decide⟩, ⟨⟨[0], "old"⟩, by decide⟩,
      by decide, by decide⟩,
    overwrite_last_write_wins ⟨fun _ => true, fun _ => true⟩
      ⟨[("cat.png", ⟨[0], "old"⟩)], [ShareEntry.file "cat.png" ⟨[0], "old"⟩]⟩
      ⟨"cat.png", [1], "image/png"⟩ (by decide) rfl rfl
      ⟨⟨[0], "old"⟩, by decide⟩ ⟨⟨[0], "old"⟩, by decide⟩ (by decide) (by decide)⟩

/-- C8: module initialization raises (`ValueError`) whenever any of the
configuration inputs is absent or empty — the three credentials and the
share name read from the environment, or the container name (which, being
the fixed non-empty literal `"photos"`, can in fact never be absent). -/
theorem missing_config_fails (env : Env)
    (h : falsyEnv env.AZURE_STORAGE_CONNECTION_STRING = true ∨
         falsyEnv env.AZURE_STORAGE_ACCOUNT_NAME = true ∨
         falsyEnv env.AZURE_STORAGE_ACCOUNT_KEY = true ∨
         container_name = "" ∨
         falsyEnv env.AZURE_FILE_SHARE_NAME = true) :
    init_app env =
      Except.error "AZURE_STORAGE_CONNECTION_STRING, AZURE_STORAGE_ACCOUNT_NAME, AZURE_STORAGE_ACCOUNT_KEY, or AZURE_FILE_SHARE_NAME is missing in .env!" := by
  rcases h with h | h | h | h | h
  · simp [init_app, h]
  · simp [init_app, h]
  · simp [init_app, h]
  · exact absurd h (by decide)
  · simp [init_app, h]

/-- Witness for C8, at an environment missing the connection string. -/
theorem missing_config_fails_witness :
    (falsyEnv (Env.mk none (some "acct") (some "key") (some "share")).AZURE_STORAGE_CONNECTION_STRING = true ∨
      falsyEnv (Env.mk none (some "acct") (some "key") (some "share")).AZURE_STORAGE_ACCOUNT_NAME = true ∨
      falsyEnv (Env.mk none (some "acct") (some "key") (some "share")).AZURE_STORAGE_ACCOUNT_KEY = true ∨
      container_name = "" ∨
      falsyEnv (Env.mk none (some "acct") (some "key") (some "share")).AZURE_FILE_SHARE_NAME = true) ∧
    init_app (Env.mk none (some "acct") (some "key") (some "share")) =
      Except.error "AZURE_STORAGE_CONNECTION_STRING, AZURE_STORAGE_ACCOUNT_NAME, AZURE_STORAGE_ACCOUNT_KEY, or AZURE_FILE_SHARE_NAME is missing in .env!" :=
  ⟨Or.inl rfl,
    missing_config_fails (Env.mk none (some "acct") (some "key") (some "share")) (Or.inl rfl)⟩

/-- C9: `GET /` returns the backend state unchanged (no mutation), a
repeated call from the returned state behaves identically, and the page
is recomputed from the current state by fresh enumeration and signing on
every call — no cached result is reused. -/
theorem view_photos_no_mutation (signOk : SignOracle) (cfg : Config) (now : Nat)
    (st : AppState) :
    (view_photos signOk cfg now st).2 = st ∧
    view_photos signOk cfg now ((view_photos signOk cfg now st).2) =
      view_photos signOk cfg now st ∧
    (view_photos signOk cfg now st).1 = Response.page (galleryOf signOk cfg now st) :=
  ⟨rfl, rfl, rfl⟩

/-- C10: the page of `GET /` is the blob-backed entries followed by the
share-backed entries; each group lists, in the backend's enumeration
order, exactly the objects whose signing succeeds, and the share group's
names come from `shareFileNames`, which excludes directory entries. -/
theorem gallery_order (signOk : SignOracle) (cfg : Config) (now : Nat) (st : AppState) :
    ∃ bs fs, (view_photos signOk cfg now st).1 = Response.page (bs ++ fs) ∧
      (∀ e ∈ bs, e.backend = .blob) ∧
      (∀ e ∈ fs, e.backend = .fileShare) ∧
      bs.map GalleryEntry.objectName =
        (st.blobs.map Prod.fst).filter (fun n => signOk .blob n) ∧
      fs.map GalleryEntry.objectName =
        (shareFileNames st.share).filter (fun n => signOk .fileShare n) := by
  refine ⟨blobEntries signOk cfg now st.blobs, fileEntries signOk cfg now st.share,
    rfl, ?_, ?_, blobEntries_names signOk cfg now st.blobs,
    fileEntries_names signOk cfg now st.share⟩
  · intro e he
    exact (token_of_mem_blobEntries he).2.2
  · intro e he
    exact (token_of_mem_fileEntries he).2.2

end PhotoApp
